import Mathlib

/-!
Verification of the batch submission and progress-monitoring engine of the
intelligent-document-processing repository.  The CLI implementation itself
(the `idp_cli` Python package) is not shipped in this source snapshot — only
its README and a demo shell script are — so the engine's operations are
modelled from the specification and the README, and the demo script's
manifest-generation loop is embedded directly from the shell source.
-/

namespace IdpCli

/-- Modelled from the spec: the per-document status enumeration of the
missing `idp_cli` status module (`QUEUED | RUNNING | COMPLETED | FAILED |
UNKNOWN`). -/
inductive DocumentStatus where
  | QUEUED
  | RUNNING
  | COMPLETED
  | FAILED
  | UNKNOWN
  deriving DecidableEq, Repr

/-- Modelled from the spec: a status is terminal iff it is `COMPLETED` or
`FAILED`. -/
def DocumentStatus.isTerminal : DocumentStatus → Bool
  | .COMPLETED => true
  | .FAILED => true
  | _ => false

/-- Modelled from the spec: the batch-level summary produced by the missing
Status Aggregator (`BatchSummary`).  `counts` is the tally per status and
`is_terminal` records whether every document is terminal. -/
structure BatchSummary where
  batch_id : String
  total : Nat
  counts : DocumentStatus → Nat
  per_document : List (String × DocumentStatus)
  is_terminal : Bool

/-- Modelled from the spec: one status lookup of the missing aggregator.
A lookup error is downgraded to `UNKNOWN`, never propagated. -/
def lookupStatus (lookup : String → Except String DocumentStatus)
    (docId : String) : DocumentStatus :=
  match lookup docId with
  | .ok s => s
  | .error _ => .UNKNOWN

/-- Modelled from the spec: the missing `aggregate(batch_id)` reduction of
the Status Aggregator.  One independent lookup per recorded document id;
count by status; `is_terminal` iff every document is `COMPLETED` or
`FAILED`. -/
def aggregate (batchId : String) (docIds : List String)
    (lookup : String → Except String DocumentStatus) : BatchSummary :=
  let per := docIds.map (fun d => (d, lookupStatus lookup d))
  { batch_id := batchId
    total := per.length
    counts := fun s => (per.filter (fun p => p.2 = s)).length
    per_document := per
    is_terminal := per.all (fun p => p.2.isTerminal) }

/-- The scripted lookup table of the spec's aggregation-reduction example:
d1 completed, d2 failed, d3 running. -/
def exampleLookup1 : String → Except String DocumentStatus :=
  fun d =>
    if d = "d1" then .ok .COMPLETED
    else if d = "d2" then .ok .FAILED
    else .ok .RUNNING

/-- The same table with d3 flipped to completed. -/
def exampleLookup2 : String → Except String DocumentStatus :=
  fun d =>
    if d = "d1" then .ok .COMPLETED
    else if d = "d2" then .ok .FAILED
    else .ok .COMPLETED

/-- A lookup table where the lookup for d2 itself errors. -/
def exampleLookupErr : String → Except String DocumentStatus :=
  fun d =>
    if d = "d1" then .ok .COMPLETED
    else if d = "d2" then .error "lookup failed"
    else .ok .RUNNING

/-- Modelled from the spec: one entry of the missing Manifest Model
(`ManifestEntry`). -/
structure ManifestEntry where
  source_ref : String
  document_id : String
  baseline_ref : Option String
  deriving DecidableEq, Repr

/-- Modelled from the spec: the per-entry failure reasons the missing Batch
Submitter reports synchronously (not found, permission, network). -/
inductive EntryFailure where
  | notFound
  | permission
  | network
  deriving DecidableEq, Repr

/-- Modelled from the spec: one admission message of the missing Batch
Submitter, carrying document id, batch id and staged key. -/
structure AdmissionMessage where
  document_id : String
  batch_id : String
  staged_key : String
  deriving DecidableEq, Repr

/-- Modelled from the spec: the deterministic staging key
`\x7bbatch_id\x7d/\x7brelative_path\x7d`. -/
def stagedKey (batchId : String) (relPath : String) : String :=
  batchId ++ "/" ++ relPath

/-- Modelled from the spec: the durable Batch Registry record of the missing
registry module, tracking the already-enqueued document IDs so a retry can
skip them. -/
structure RegistryRecord where
  batch_id : String
  enqueued_ids : List String
  deriving DecidableEq, Repr

/-- Modelled from the spec: the remote state a submission touches — the
registry record at the batch's deterministic location, and the admission
queue. -/
structure SubmitState where
  record : Option RegistryRecord
  queue : List AdmissionMessage
  deriving Repr

/-- The empty remote state: no registry record yet, empty queue. -/
def initState : SubmitState := { record := none, queue := [] }

/-- Modelled from the spec: the externally visible actions of the missing
`submit` implementation, in the order it performs them. -/
inductive SubmitEvent where
  | writeRegistry (batch_id : String)
  | transfer (document_id : String)
  | enqueue (msg : AdmissionMessage)
  deriving DecidableEq, Repr

/-- Modelled from the spec: how each submission event acts on the remote
state.  Writing the registry creates the record if absent; an enqueue
appends the message and records its document id in the record. -/
def applyEvent (st : SubmitState) : SubmitEvent → SubmitState
  | .writeRegistry b =>
      { st with record := some (match st.record with
          | some r => r
          | none => { batch_id := b, enqueued_ids := [] }) }
  | .transfer _ => st
  | .enqueue msg =>
      { record := match st.record with
          | some r => some { r with enqueued_ids := r.enqueued_ids ++ [msg.document_id] }
          | none => none
        queue := st.queue ++ [msg] }

/-- Whether the registry record already lists this document id as
enqueued. -/
def hasEnqueued (st : SubmitState) (d : String) : Bool :=
  match st.record with
  | some r => d ∈ r.enqueued_ids
  | none => false

/-- Modelled from the spec: the running result of a `submit` call — the
event trace so far, the remote state, the entries successfully enqueued by
this call, and the per-entry failures collected so far. -/
structure SubmitRun where
  events : List SubmitEvent
  state : SubmitState
  succeeded : List ManifestEntry
  failures : List (String × EntryFailure)

/-- Append one event to the run and apply it to the remote state. -/
def emit (r : SubmitRun) (ev : SubmitEvent) : SubmitRun :=
  { r with events := r.events ++ [ev], state := applyEvent r.state ev }

/-- Modelled from the spec: how the missing `submit` processes one manifest
entry.  An id already recorded as enqueued is skipped; a failing entry is
reported with its specific reason and nothing is enqueued; otherwise the
payload is transferred to its staged key and exactly one admission message
is enqueued. -/
def processEntry (b : String) (fail : String → Option EntryFailure)
    (r : SubmitRun) (e : ManifestEntry) : SubmitRun :=
  if hasEnqueued r.state e.document_id then r
  else
    match fail e.document_id with
    | some reason => { r with failures := r.failures ++ [(e.document_id, reason)] }
    | none =>
        let msg : AdmissionMessage :=
          { document_id := e.document_id, batch_id := b
            staged_key := stagedKey b e.source_ref }
        let r1 := emit (emit r (.transfer e.document_id)) (.enqueue msg)
        { r1 with succeeded := r1.succeeded ++ [e] }

/-- Modelled from the spec: the missing `submit(Manifest, batch_id)` of the
Batch Submitter.  It writes the Batch Registry record first, then processes
each entry in order, collecting per-entry outcomes; `fail` is the oracle
saying whether (and why) a given entry's transfer/enqueue fails during this
call. -/
def submit (m : List ManifestEntry) (b : String)
    (fail : String → Option EntryFailure) (st : SubmitState) : SubmitRun :=
  m.foldl (processEntry b fail)
    (emit { events := [], state := st, succeeded := [], failures := [] }
      (.writeRegistry b))

/-- An oracle under which no entry fails (a fully successful attempt). -/
def noFailure : String → Option EntryFailure := fun _ => none

/-- The document ids recorded as enqueued in the registry record. -/
def recIds (st : SubmitState) : List String :=
  match st.record with
  | some r => r.enqueued_ids
  | none => []

/-- The submission-state invariant: the registry record exists and lists
exactly the document ids of the messages on the admission queue. -/
def stInv (st : SubmitState) : Prop :=
  st.record.isSome = true ∧ st.queue.map (fun msg => msg.document_id) = recIds st

/-- The admission message `submit` builds for one manifest entry. -/
def msgOf (b : String) (e : ManifestEntry) : AdmissionMessage :=
  { document_id := e.document_id, batch_id := b, staged_key := stagedKey b e.source_ref }

/-- The characters of a filename before its last dot; the filename itself
when it has no dot.  This is the "file name stem" used for derived
document ids, and the shell substitution in the demo script. -/
def stemChars (cs : List Char) : List Char :=
  if '.' ∈ cs then ((cs.reverse.dropWhile (fun c => c ≠ '.')).drop 1).reverse
  else cs

/-- The characters after the last path separator (the leaf filename). -/
def basenameChars (cs : List Char) : List Char :=
  (cs.reverse.takeWhile (fun c => c ≠ '/')).reverse

/-- String form of `stemChars`. -/
def stemString (s : String) : String := String.mk (stemChars s.data)

/-- String form of `basenameChars`. -/
def basenameString (s : String) : String := String.mk (basenameChars s.data)

/-- Modelled from the spec: one raw row of an on-disk manifest consumed by
the missing `parse` of the Manifest Model — a document path plus an
optional explicit document id. -/
structure ManifestRow where
  document_path : String
  document_id : Option String
  deriving DecidableEq, Repr

/-- Modelled from the spec: the document id a manifest row resolves to —
the explicit id when given, otherwise derived from the file name stem. -/
def rowId (row : ManifestRow) : String :=
  match row.document_id with
  | some i => i
  | none => stemString (basenameString row.document_path)

/-- Modelled from the spec: every row (with its index) whose resolved
document id collides with another row's — both duplicate explicit ids and
duplicate derived ids.  All offending rows are collected, not just the
first. -/
def offendingRows (rows : List ManifestRow) : List (Nat × ManifestRow) :=
  rows.enum.filter (fun p =>
    rows.enum.any (fun q => decide (q.1 ≠ p.1 ∧ rowId q.2 = rowId p.2)))

/-- Modelled from the spec: the missing `parse` of the Manifest Model.
Validation fails, naming every offending row, when any resolved document
ids collide; otherwise the rows become manifest entries. -/
def parse (rows : List ManifestRow) :
    Except (List (Nat × ManifestRow)) (List ManifestEntry) :=
  match offendingRows rows with
  | [] => .ok (rows.map (fun r =>
      { source_ref := r.document_path, document_id := rowId r, baseline_ref := none }))
  | bad => .error bad

/-- Modelled from the spec: the staging keys the submission pipeline
uploads after parsing — nothing is uploaded when validation failed. -/
def uploadsAfterParse (b : String) (rows : List ManifestRow) : List String :=
  match parse rows with
  | .ok entries => entries.map (fun e => stagedKey b e.source_ref)
  | .error _ => []

/-- Modelled from the spec: the document id generated by a directory scan
for a file given by its relative path components — the relative sub-path
is preserved and the leaf filename loses its extension. -/
def docIdComponents : List String → List String
  | [] => []
  | [f] => [stemString f]
  | c :: rest => c :: docIdComponents rest

/-- Modelled from the spec: the staging destination key components for a
scanned file — the batch id followed by the file's relative path. -/
def destKeyComponents (batchId : String) (relPath : List String) : List String :=
  batchId :: relPath

/-- Modelled from the spec: the aggregator-call trace of the missing
Monitor Loop.  `script k` is the `is_terminal` flag of the `k`-th
aggregation; the loop records the tick, stops when the summary is
terminal, and otherwise sleeps and ticks again.  `fuel` totalizes the
unbounded loop. -/
def monitorPolls (script : Nat → Bool) : Nat → Nat → List Nat
  | 0, _ => []
  | fuel + 1, k => k :: (if script k then [] else monitorPolls script fuel (k + 1))

/-- Modelled from the spec: the remote systems a monitor can observe — the
Batch Registry and the tracking backend. -/
structure RemoteState where
  registry : List RegistryRecord
  tracking : List (String × DocumentStatus)
  deriving Repr

/-- Modelled from the spec: a status lookup against the tracking backend;
a document with no record yields a lookup error. -/
def trackingLookup (rs : RemoteState) : String → Except String DocumentStatus :=
  fun d =>
    match rs.tracking.find? (fun p => p.1 = d) with
    | some p => .ok p.2
    | none => .error "no status record"

/-- Modelled from the spec: the client-side phases of the Monitor Loop,
with an explicit mid-poll phase so cancellation during a poll is
representable. -/
inductive LoopPhase where
  | polling
  | midPoll
  | terminal
  | cancelled
  deriving DecidableEq, Repr

/-- Modelled from the spec: the full state of a monitoring session — the
loop phase, the remote systems it observes, and the tick count. -/
structure MonitorState where
  phase : LoopPhase
  remote : RemoteState
  ticks : Nat

/-- Modelled from the spec: the step relation of the missing Monitor Loop.
A tick starts a poll, a finished poll aggregates the tracking backend and
either stops (terminal) or keeps polling, and a user interrupt cancels
from any non-terminal point, including mid-poll.  Every step is
client-side only. -/
inductive MonitorStep : MonitorState → MonitorState → Prop where
  | beginPoll (s : MonitorState) : s.phase = .polling →
      MonitorStep s { s with phase := .midPoll }
  | finishPoll (s : MonitorState) (b : String) (ds : List String) :
      s.phase = .midPoll →
      MonitorStep s
        { s with
          phase := if (aggregate b ds (trackingLookup s.remote)).is_terminal
            then .terminal else .polling
          ticks := s.ticks + 1 }
  | cancel (s : MonitorState) : s.phase = .polling ∨ s.phase = .midPoll →
      MonitorStep s { s with phase := .cancelled }

/-- One directory entry seen by the demo script's glob: a name directly
under the W2 samples directory, and whether it is a regular file. -/
structure DirEntry where
  name : String
  isFile : Bool
  deriving DecidableEq, Repr

/-- The shell glob `*.pdf` of `demo_w2_processing.sh`: matches non-hidden
names ending in `.pdf`. -/
def matchesPdfGlob (n : String) : Bool :=
  (match n.data with
   | [] => false
   | c :: _ => c ≠ '.')
  && (['.', 'p', 'd', 'f'].isSuffixOf n.data)

/-- One CSV manifest row written by the demo script's loop:
`$pdf,$doc_id,local,W2`. -/
structure W2ManifestRow where
  document_path : String
  document_id : String
  typeCol : String
  expected_class : String
  deriving DecidableEq, Repr

/-- The manifest rows the demo script's loop appends: one per regular file
matching `*.pdf` under the samples directory, with the document id
`$\x7bfilename%.*\x7d` (the basename minus its final extension) and the
`local` type column. -/
def w2ManifestRows (dir : String) (entries : List DirEntry) : List W2ManifestRow :=
  (entries.filter (fun e => matchesPdfGlob e.name && e.isFile)).map
    (fun e =>
      { document_path := dir ++ "/" ++ e.name
        document_id := stemString e.name
        typeCol := "local"
        expected_class := "W2" })

/-- The manifest file contents: the CSV header line followed by one
comma-joined line per row. -/
def w2ManifestLines (dir : String) (entries : List DirEntry) : List String :=
  "document_path,document_id,type,expected_class"
    :: (w2ManifestRows dir entries).map (fun r =>
        r.document_path ++ "," ++ r.document_id ++ ","
          ++ r.typeCol ++ "," ++ r.expected_class)

/-- The document count the script reports: manifest lines minus the
header (`tail -n +2 | wc -l`). -/
def w2DocCount (dir : String) (entries : List DirEntry) : Nat :=
  (w2ManifestLines dir entries).length - 1

/-- A concrete two-entry manifest used by the submission witnesses. -/
def exampleManifest : List ManifestEntry :=
  [{ source_ref := "w2/a.pdf", document_id := "a", baseline_ref := none },
   { source_ref := "w2/b.pdf", document_id := "b", baseline_ref := none }]

/-- A first-attempt oracle under which document b fails with a network
error. -/
def exampleFail : String → Option EntryFailure :=
  fun d => if d = "b" then some .network else none

/-- Two manifest rows without explicit ids whose derived ids collide
(same leaf filename in different directories). -/
def exampleRows : List ManifestRow :=
  [{ document_path := "a/x.pdf", document_id := none },
   { document_path := "b/x.pdf", document_id := none }]

/-- A concrete remote state for the cancellation witness. -/
def exampleRemote : RemoteState :=
  { registry := [{ batch_id := "batch-1", enqueued_ids := ["d1"] }]
    tracking := [("d1", DocumentStatus.RUNNING)] }

/-- A monitoring session at its start, observing `exampleRemote`. -/
def exampleMonitorStart : MonitorState :=
  { phase := .polling, remote := exampleRemote, ticks := 0 }

/-- A concrete W2 samples directory listing: two W2 PDFs, a text file and
a subdirectory. -/
def exampleW2Dir : List DirEntry :=
  [{ name := "W2_XL_input_clean_1000.pdf", isFile := true },
   { name := "W2_XL_input_clean_1001.pdf", isFile := true },
   { name := "README.txt", isFile := true },
   { name := "archive", isFile := false }]

end IdpCli

namespace IdpCli

theorem recIds_none (st : SubmitState) (hr : st.record = none) : recIds st = [] := by
  simp [recIds, hr]

theorem recIds_some (st : SubmitState) (rec : RegistryRecord)
    (hr : st.record = some rec) : recIds st = rec.enqueued_ids := by
  simp [recIds, hr]

theorem stInv_processEntry (b : String) (fail : String → Option EntryFailure)
    (r : SubmitRun) (e : ManifestEntry) (h : stInv r.state) :
    stInv (processEntry b fail r e).state := by
  obtain ⟨h1, h2⟩ := h
  unfold processEntry
  split
  · exact ⟨h1, h2⟩
  · split
    · exact ⟨h1, h2⟩
    · rcases hr : r.state.record with _ | rec
      · rw [hr] at h1; simp at h1
      · rw [recIds_some r.state rec hr] at h2
        constructor
        · simp [emit, applyEvent, hr]
        · simp only [emit, applyEvent, hr]
          rw [recIds]
          simp [h2]

theorem nodup_recIds_processEntry (b : String) (fail : String → Option EntryFailure)
    (r : SubmitRun) (e : ManifestEntry) (h : (recIds r.state).Nodup) :
    (recIds (processEntry b fail r e).state).Nodup := by
  unfold processEntry
  split
  · exact h
  · next hskip =>
    split
    · exact h
    · rcases hr : r.state.record with _ | rec
      · simp only [emit, applyEvent, hr]
        exact List.nodup_nil
      · rw [recIds_some r.state rec hr] at h
        simp only [hasEnqueued, hr] at hskip
        simp only [emit, applyEvent, hr]
        rw [recIds]
        simp only [List.nodup_append]
        refine ⟨h, List.nodup_singleton _, ?_⟩
        intro a ha hb
        simp only [List.mem_singleton] at hb
        subst hb
        exact hskip (by simpa using ha)

theorem mem_recIds_processEntry (b : String) (fail : String → Option EntryFailure)
    (r : SubmitRun) (e : ManifestEntry) (x : String) (h : x ∈ recIds r.state) :
    x ∈ recIds (processEntry b fail r e).state := by
  unfold processEntry
  split
  · exact h
  · split
    · exact h
    · rcases hr : r.state.record with _ | rec
      · rw [recIds_none r.state hr] at h
        simp at h
      · rw [recIds_some r.state rec hr] at h
        simp only [emit, applyEvent, hr]
        rw [recIds]
        simp
        exact Or.inl h

theorem record_isSome_processEntry (b : String) (fail : String → Option EntryFailure)
    (r : SubmitRun) (e : ManifestEntry) (h : r.state.record.isSome = true) :
    (processEntry b fail r e).state.record.isSome = true := by
  unfold processEntry
  split
  · exact h
  · split
    · exact h
    · rcases hr : r.state.record with _ | rec
      · rw [hr] at h; simp at h
      · simp [emit, applyEvent, hr]

theorem stInv_foldl (b : String) (fail : String → Option EntryFailure)
    (m : List ManifestEntry) (r : SubmitRun) (h : stInv r.state) :
    stInv ((m.foldl (processEntry b fail) r).state) := by
  induction m generalizing r with
  | nil => exact h
  | cons e m ih => exact ih _ (stInv_processEntry b fail r e h)

theorem nodup_recIds_foldl (b : String) (fail : String → Option EntryFailure)
    (m : List ManifestEntry) (r : SubmitRun) (h : (recIds r.state).Nodup) :
    (recIds ((m.foldl (processEntry b fail) r).state)).Nodup := by
  induction m generalizing r with
  | nil => exact h
  | cons e m ih => exact ih _ (nodup_recIds_processEntry b fail r e h)

theorem mem_recIds_foldl (b : String) (fail : String → Option EntryFailure)
    (m : List ManifestEntry) (r : SubmitRun) (x : String) (h : x ∈ recIds r.state) :
    x ∈ recIds ((m.foldl (processEntry b fail) r).state) := by
  induction m generalizing r with
  | nil => exact h
  | cons e m ih => exact ih _ (mem_recIds_processEntry b fail r e x h)

theorem record_isSome_foldl (b : String) (fail : String → Option EntryFailure)
    (m : List ManifestEntry) (r : SubmitRun) (h : r.state.record.isSome = true) :
    ((m.foldl (processEntry b fail) r).state).record.isSome = true := by
  induction m generalizing r with
  | nil => exact h
  | cons e m ih => exact ih _ (record_isSome_processEntry b fail r e h)

theorem mem_recIds_after_noFailure (b : String) (m : List ManifestEntry) :
    ∀ (r : SubmitRun), r.state.record.isSome = true →
    ∀ e ∈ m, e.document_id ∈ recIds ((m.foldl (processEntry b noFailure) r).state) := by
  induction m with
  | nil =>
    intro r _ e he
    cases he
  | cons e0 m ih =>
    intro r hs e he
    rw [List.foldl_cons]
    rcases List.mem_cons.mp he with rfl | he'
    · apply mem_recIds_foldl
      unfold processEntry
      split
      · next hsk =>
        rcases hr : r.state.record with _ | rec
        · simp [hasEnqueued, hr] at hsk
        · rw [recIds_some r.state rec hr]
          simpa [hasEnqueued, hr] using hsk
      · simp only [noFailure]
        rcases hr : r.state.record with _ | rec
        · rw [hr] at hs; simp at hs
        · simp only [emit, applyEvent, hr]
          rw [recIds]
          simp
    · exact ih (processEntry b noFailure r e0)
        (record_isSome_processEntry b noFailure r e0 hs) e he'

theorem applyEvent_writeRegistry_isSome (st : SubmitState) (b : String)
    (h : st.record.isSome = true) : applyEvent st (.writeRegistry b) = st := by
  rcases hr : st.record with _ | rec
  · rw [hr] at h; simp at h
  · cases st
    simp_all [applyEvent]

theorem processEntry_events_append (b : String) (fail : String → Option EntryFailure)
    (r : SubmitRun) (e : ManifestEntry) :
    ∃ u, (processEntry b fail r e).events = r.events ++ u := by
  unfold processEntry
  split
  · exact ⟨[], by simp⟩
  · split
    · exact ⟨[], by simp⟩
    · exact ⟨[.transfer e.document_id,
        .enqueue { document_id := e.document_id, batch_id := b
                   staged_key := stagedKey b e.source_ref }], by simp [emit]⟩

theorem foldl_events_append (b : String) (fail : String → Option EntryFailure)
    (m : List ManifestEntry) : ∀ r : SubmitRun,
    ∃ u, (m.foldl (processEntry b fail) r).events = r.events ++ u := by
  induction m with
  | nil => exact fun r => ⟨[], by simp⟩
  | cons e0 m ih =>
    intro r
    rw [List.foldl_cons]
    obtain ⟨u1, hu1⟩ := processEntry_events_append b fail r e0
    obtain ⟨u2, hu2⟩ := ih (processEntry b fail r e0)
    exact ⟨u1 ++ u2, by rw [hu2, hu1, List.append_assoc]⟩

theorem submit_events_head (m : List ManifestEntry) (b : String)
    (fail : String → Option EntryFailure) (st : SubmitState) :
    ∃ t, (submit m b fail st).events = SubmitEvent.writeRegistry b :: t := by
  obtain ⟨u, hu⟩ := foldl_events_append b fail m
    (emit { events := [], state := st, succeeded := [], failures := [] } (.writeRegistry b))
  exact ⟨u, by rw [submit, hu]; rfl⟩

theorem record_isSome_applyEvent (st : SubmitState) (ev : SubmitEvent)
    (h : st.record.isSome = true) : (applyEvent st ev).record.isSome = true := by
  cases ev with
  | writeRegistry b => simp [applyEvent]
  | transfer d => exact h
  | enqueue msg =>
    rcases hr : st.record with _ | rec
    · rw [hr] at h; simp at h
    · simp [applyEvent, hr]

theorem record_isSome_foldl_applyEvent (evs : List SubmitEvent) :
    ∀ st : SubmitState, st.record.isSome = true →
    (evs.foldl applyEvent st).record.isSome = true := by
  induction evs with
  | nil => exact fun st h => h
  | cons ev evs ih =>
    intro st h
    rw [List.foldl_cons]
    exact ih _ (record_isSome_applyEvent st ev h)

theorem processEntry_of_fail (b : String) (fail : String → Option EntryFailure)
    (r : SubmitRun) (e : ManifestEntry) (reason : EntryFailure)
    (h1 : hasEnqueued r.state e.document_id = false)
    (h2 : fail e.document_id = some reason) :
    processEntry b fail r e
      = { r with failures := r.failures ++ [(e.document_id, reason)] } := by
  simp [processEntry, h1, h2]

theorem processEntry_of_success (b : String) (fail : String → Option EntryFailure)
    (r : SubmitRun) (e : ManifestEntry)
    (h1 : hasEnqueued r.state e.document_id = false)
    (h2 : fail e.document_id = none) :
    processEntry b fail r e =
      { events := r.events ++ [.transfer e.document_id, .enqueue (msgOf b e)]
        state := applyEvent (applyEvent r.state (.transfer e.document_id))
          (.enqueue (msgOf b e))
        succeeded := r.succeeded ++ [e]
        failures := r.failures } := by
  simp [processEntry, h1, h2, emit, msgOf]

end IdpCli

namespace IdpCli

theorem submitLoop_characterization (b : String) (fail : String → Option EntryFailure)
    (m : List ManifestEntry) : ∀ (r : SubmitRun) (rec : RegistryRecord),
    r.state.record = some rec →
    (∀ e ∈ m, e.document_id ∉ rec.enqueued_ids) →
    (m.map (fun e => e.document_id)).Nodup →
    (m.foldl (processEntry b fail) r).succeeded
        = r.succeeded ++ m.filter (fun e => fail e.document_id = none)
    ∧ (m.foldl (processEntry b fail) r).failures
        = r.failures ++ m.filterMap
            (fun e => (fail e.document_id).map (fun reason => (e.document_id, reason)))
    ∧ ∃ rec', (m.foldl (processEntry b fail) r).state.record = some rec'
        ∧ rec'.enqueued_ids = rec.enqueued_ids
            ++ (m.filter (fun e => fail e.document_id = none)).map
                (fun e => e.document_id) := by
  induction m with
  | nil =>
    intro r rec hrec _ _
    exact ⟨by simp, by simp, rec, by simpa using hrec, by simp⟩
  | cons e0 m ih =>
    intro r rec hrec hfresh hnd
    have hskip : hasEnqueued r.state e0.document_id = false := by
      simp only [hasEnqueued, hrec]
      simpa using hfresh e0 (List.mem_cons_self e0 m)
    have hnd' : (m.map (fun e => e.document_id)).Nodup := by
      simpa using hnd.of_cons
    rw [List.foldl_cons]
    rcases hf : fail e0.document_id with _ | reason
    · -- first-attempt success: enqueue and record the id
      rw [processEntry_of_success b fail r e0 hskip hf]
      have hfresh' : ∀ e ∈ m, e.document_id ∉ rec.enqueued_ids ++ [e0.document_id] := by
        intro e hem
        simp only [List.mem_append, List.mem_singleton]
        push_neg
        refine ⟨hfresh e (List.mem_cons_of_mem e0 hem), ?_⟩
        have : e0.document_id ∉ m.map (fun e => e.document_id) := by
          simpa using hnd.not_mem
        intro hcontra
        exact this (hcontra ▸ List.mem_map_of_mem (fun e => e.document_id) hem)
      obtain ⟨hs, hfl, rec', hrec2, hids⟩ :=
        ih { events := r.events ++ [.transfer e0.document_id, .enqueue (msgOf b e0)]
             state := applyEvent (applyEvent r.state (.transfer e0.document_id))
               (.enqueue (msgOf b e0))
             succeeded := r.succeeded ++ [e0]
             failures := r.failures }
          { rec with enqueued_ids := rec.enqueued_ids ++ [e0.document_id] }
          (by simp [applyEvent, hrec, msgOf]) hfresh' hnd'
      refine ⟨?_, ?_, rec', hrec2, ?_⟩
      · rw [hs]; simp [hf]
      · rw [hfl]; simp [hf]
      · rw [hids]; simp [hf]
    · -- first-attempt failure: report the reason, enqueue nothing
      rw [processEntry_of_fail b fail r e0 reason hskip hf]
      have hfresh' : ∀ e ∈ m, e.document_id ∉ rec.enqueued_ids := fun e hem =>
        hfresh e (List.mem_cons_of_mem e0 hem)
      obtain ⟨hs, hfl, rec', hrec2, hids⟩ :=
        ih { r with failures := r.failures ++ [(e0.document_id, reason)] } rec
          hrec hfresh' hnd'
      refine ⟨?_, ?_, rec', hrec2, ?_⟩
      · rw [hs]; simp [hf]
      · rw [hfl]; simp [hf]
      · rw [hids]; simp [hf]

end IdpCli

namespace IdpCli

/-- Claim C1: for every batch summary produced by `aggregate`, the
`is_terminal` flag is true iff every document's status is COMPLETED or
FAILED, and the counts map tallies each status exactly; for the statuses
d1 COMPLETED, d2 FAILED, d3 RUNNING the counts are 1/1/1 with
`is_terminal` false, and flipping d3 to COMPLETED makes it true. -/
theorem aggregate_terminal_iff_and_counts (b : String) (ds : List String)
    (lk : String → Except String DocumentStatus) :
    ((aggregate b ds lk).is_terminal = true ↔
      ∀ p ∈ (aggregate b ds lk).per_document,
        p.2 = DocumentStatus.COMPLETED ∨ p.2 = DocumentStatus.FAILED)
    ∧ (∀ s, (aggregate b ds lk).counts s =
        ((aggregate b ds lk).per_document.map Prod.snd).count s)
    ∧ (aggregate "b" ["d1", "d2", "d3"] exampleLookup1).counts .COMPLETED = 1
    ∧ (aggregate "b" ["d1", "d2", "d3"] exampleLookup1).counts .FAILED = 1
    ∧ (aggregate "b" ["d1", "d2", "d3"] exampleLookup1).counts .RUNNING = 1
    ∧ (aggregate "b" ["d1", "d2", "d3"] exampleLookup1).is_terminal = false
    ∧ (aggregate "b" ["d1", "d2", "d3"] exampleLookup2).is_terminal = true := by
  refine ⟨?_, ?_, by decide, by decide, by decide, by decide, by decide⟩
  · simp only [aggregate, List.all_eq_true]
    constructor
    · intro h p hp
      have := h p hp
      cases hs : p.2 <;> simp [DocumentStatus.isTerminal, hs] at this ⊢
    · intro h p hp
      rcases h p hp with h1 | h1 <;> simp [DocumentStatus.isTerminal, h1]
  · intro s
    simp only [aggregate, List.count, List.countP_map, ← List.countP_eq_length_filter]
    apply List.countP_congr
    intro a _
    simp [Function.comp, beq_iff_eq]

/-- Witness for C1: the flipped example is terminal, via the iff applied
at a concrete input. -/
theorem aggregate_terminal_iff_and_counts_witness :
    (aggregate "b" ["d1", "d2", "d3"] exampleLookup2).is_terminal = true :=
  (aggregate_terminal_iff_and_counts "b" ["d1", "d2", "d3"] exampleLookup2).1.mpr
    (by decide)

/-- Claim C2: if the status lookup for one document errors, `aggregate`
yields UNKNOWN for that document and the looked-up status for every other
document (the call is total for every lookup function), and a document
whose lookup errored is never counted or reported as FAILED. -/
theorem aggregate_lookup_error_gives_unknown (b : String) (ds : List String)
    (lk : String → Except String DocumentStatus) :
    (∀ d e, lk d = Except.error e →
      ∀ p ∈ (aggregate b ds lk).per_document, p.1 = d →
        p.2 = DocumentStatus.UNKNOWN)
    ∧ (∀ d s, lk d = Except.ok s →
      ∀ p ∈ (aggregate b ds lk).per_document, p.1 = d → p.2 = s)
    ∧ ((aggregate b ds lk).counts DocumentStatus.FAILED =
        (ds.filter (fun x => lookupStatus lk x = DocumentStatus.FAILED)).length)
    ∧ (∀ d e, lk d = Except.error e →
        (d, DocumentStatus.FAILED) ∉ (aggregate b ds lk).per_document) := by
  refine ⟨?_, ?_, ?_, ?_⟩
  · intro d e he p hp hpd
    simp only [aggregate, List.mem_map] at hp
    rcases hp with ⟨x, hx, rfl⟩
    simp only at hpd
    subst hpd
    simp [lookupStatus, he]
  · intro d s hs p hp hpd
    simp only [aggregate, List.mem_map] at hp
    rcases hp with ⟨x, hx, rfl⟩
    simp only at hpd
    subst hpd
    simp [lookupStatus, hs]
  · simp only [aggregate]
    rw [List.filter_map]
    rw [List.length_map]
    rfl
  · intro d e he hmem
    simp only [aggregate, List.mem_map] at hmem
    rcases hmem with ⟨x, hx, heq⟩
    have h1 : x = d := congrArg Prod.fst heq
    have h2 : lookupStatus lk x = DocumentStatus.FAILED := congrArg Prod.snd heq
    subst h1
    simp [lookupStatus, he] at h2

/-- Witness for C2: with the lookup for d2 erroring, d2 is not reported
FAILED and the FAILED count is zero. -/
theorem aggregate_lookup_error_gives_unknown_witness :
    ("d2", DocumentStatus.FAILED)
        ∉ (aggregate "b" ["d1", "d2", "d3"] exampleLookupErr).per_document
    ∧ (aggregate "b" ["d1", "d2", "d3"] exampleLookupErr).counts
        DocumentStatus.FAILED = 0 :=
  ⟨(aggregate_lookup_error_gives_unknown "b" ["d1", "d2", "d3"]
      exampleLookupErr).2.2.2 "d2" "lookup failed" rfl,
    ((aggregate_lookup_error_gives_unknown "b" ["d1", "d2", "d3"]
      exampleLookupErr).2.2.1).trans (by decide)⟩

end IdpCli

namespace IdpCli

/-- Claim C3: `submit` is idempotent per document under retry — after a
partial first attempt, re-invoking `submit` with the same batch id leaves
each manifest document enqueued exactly once on the admission queue, and
no document id recorded as enqueued in the registry record is enqueued
again. -/
theorem submit_retry_enqueues_each_document_once (m : List ManifestEntry)
    (b : String) (fail1 : String → Option EntryFailure)
    (e : ManifestEntry) (he : e ∈ m) :
    (((submit m b noFailure (submit m b fail1 initState).state).state.queue.map
        (fun msg => msg.document_id)).count e.document_id = 1)
    ∧ ((submit m b noFailure (submit m b fail1 initState).state).state.queue.map
        (fun msg => msg.document_id)).Nodup := by
  have h0 : stInv (emit { events := [], state := initState, succeeded := [], failures := [] }
      (.writeRegistry b)).state := ⟨rfl, rfl⟩
  have hrec0 : recIds (emit { events := [], state := initState, succeeded := [], failures := [] }
      (.writeRegistry b)).state = [] := rfl
  set r1 := submit m b fail1 initState with hr1
  have inv1 : stInv r1.state := stInv_foldl b fail1 m _ h0
  have nd1 : (recIds r1.state).Nodup := by
    have := nodup_recIds_foldl b fail1 m
      (emit { events := [], state := initState, succeeded := [], failures := [] }
        (.writeRegistry b)) (by rw [hrec0]; exact List.nodup_nil)
    exact this
  -- the second call's initial registry write leaves the existing record in place
  have hwr : (emit { events := [], state := r1.state, succeeded := [], failures := [] }
      (.writeRegistry b)).state = r1.state := by
    simp only [emit]
    exact applyEvent_writeRegistry_isSome r1.state b inv1.1
  set r2 := submit m b noFailure r1.state with hr2
  have inv2 : stInv r2.state := by
    apply stInv_foldl
    rw [hwr]
    exact inv1
  have nd2 : (recIds r2.state).Nodup := by
    apply nodup_recIds_foldl
    rw [hwr]
    exact nd1
  have mem2 : e.document_id ∈ recIds r2.state := by
    apply mem_recIds_after_noFailure b m _ _ e he
    rw [hwr]
    exact inv1.1
  rw [show r2.state.queue.map (fun msg => msg.document_id) = recIds r2.state from inv2.2]
  exact ⟨List.count_eq_one_of_mem nd2 mem2, nd2⟩

/-- Witness for C3: with document b failing on the first attempt, the
retried submission leaves b enqueued exactly once. -/
theorem submit_retry_enqueues_each_document_once_witness :
    (((submit exampleManifest "batch-1" noFailure
        (submit exampleManifest "batch-1" exampleFail initState).state).state.queue.map
        (fun msg => msg.document_id)).count "b" = 1)
    ∧ ((submit exampleManifest "batch-1" noFailure
        (submit exampleManifest "batch-1" exampleFail initState).state).state.queue.map
        (fun msg => msg.document_id)).Nodup :=
  submit_retry_enqueues_each_document_once exampleManifest "batch-1" exampleFail
    { source_ref := "w2/b.pdf", document_id := "b", baseline_ref := none }
    (by decide)

/-- Claim C4: in every execution of `submit`, the Batch Registry record is
written before any admission message is enqueued — every event-trace
prefix containing an enqueue also contains the registry write, and every
reachable state with a non-empty queue has the registry record present. -/
theorem submit_registry_written_before_enqueue (m : List ManifestEntry)
    (b : String) (fail : String → Option EntryFailure) (n : Nat) :
    (∀ msg, SubmitEvent.enqueue msg ∈ ((submit m b fail initState).events.take n) →
      SubmitEvent.writeRegistry b ∈ ((submit m b fail initState).events.take n))
    ∧ ((((submit m b fail initState).events.take n).foldl applyEvent initState).queue ≠ [] →
        (((submit m b fail initState).events.take n).foldl applyEvent
          initState).record.isSome = true) := by
  obtain ⟨t, ht⟩ := submit_events_head m b fail initState
  rw [ht]
  cases n with
  | zero =>
    constructor
    · intro msg hmem
      simp at hmem
    · intro hq
      simp [initState] at hq
  | succ n =>
    rw [List.take_succ_cons]
    constructor
    · intro msg _
      exact List.mem_cons_self _ _
    · intro _
      rw [List.foldl_cons]
      exact record_isSome_foldl_applyEvent _ _ (by simp [applyEvent, initState])

/-- Witness for C4: on the concrete manifest, the three-event prefix
contains the registry write and its reached state has the record. -/
theorem submit_registry_written_before_enqueue_witness :
    SubmitEvent.writeRegistry "batch-1"
        ∈ ((submit exampleManifest "batch-1" noFailure initState).events.take 3)
    ∧ ((((submit exampleManifest "batch-1" noFailure initState).events.take 3).foldl
        applyEvent initState).record.isSome = true) :=
  ⟨(submit_registry_written_before_enqueue exampleManifest "batch-1" noFailure 3).1
      (msgOf "batch-1"
        { source_ref := "w2/a.pdf", document_id := "a", baseline_ref := none })
      (by decide),
    (submit_registry_written_before_enqueue exampleManifest "batch-1" noFailure 3).2
      (by decide)⟩

/-- Claim C5: on a manifest with some failing entries, `submit` still
processes the remaining entries, tracks each entry's outcome
independently, returns exactly the successfully enqueued entries, and
reports each failed entry synchronously with its specific reason. -/
theorem submit_reports_partial_failures (m : List ManifestEntry) (b : String)
    (fail : String → Option EntryFailure)
    (hnd : (m.map (fun e => e.document_id)).Nodup) :
    (submit m b fail initState).succeeded
        = m.filter (fun e => fail e.document_id = none)
    ∧ (submit m b fail initState).failures
        = m.filterMap (fun e => (fail e.document_id).map
            (fun reason => (e.document_id, reason)))
    ∧ (submit m b fail initState).state.queue.map (fun msg => msg.document_id)
        = (m.filter (fun e => fail e.document_id = none)).map
            (fun e => e.document_id) := by
  have h0 : stInv (emit { events := [], state := initState, succeeded := [], failures := [] }
      (.writeRegistry b)).state := ⟨rfl, rfl⟩
  obtain ⟨hs, hfl, rec', hrec2, hids⟩ :=
    submitLoop_characterization b fail m
      (emit { events := [], state := initState, succeeded := [], failures := [] }
        (.writeRegistry b))
      { batch_id := b, enqueued_ids := [] } rfl (by simp) hnd
  have hq : (submit m b fail initState).state.queue.map (fun msg => msg.document_id)
      = recIds (submit m b fail initState).state :=
    (stInv_foldl b fail m _ h0).2
  refine ⟨by simpa using hs, by simpa using hfl, ?_⟩
  rw [hq, submit, recIds_some _ rec' hrec2, hids]
  simp

/-- Witness for C5: with document b failing with a network error, a is
enqueued and returned, and b is reported with its reason. -/
theorem submit_reports_partial_failures_witness :
    (submit exampleManifest "batch-1" exampleFail initState).succeeded
        = [{ source_ref := "w2/a.pdf", document_id := "a", baseline_ref := none }]
    ∧ (submit exampleManifest "batch-1" exampleFail initState).failures
        = [("b", EntryFailure.network)]
    ∧ (submit exampleManifest "batch-1" exampleFail initState).state.queue.map
        (fun msg => msg.document_id) = ["a"] :=
  ⟨((submit_reports_partial_failures exampleManifest "batch-1" exampleFail
      (by decide)).1).trans (by decide),
    ((submit_reports_partial_failures exampleManifest "batch-1" exampleFail
      (by decide)).2.1).trans (by decide),
    ((submit_reports_partial_failures exampleManifest "batch-1" exampleFail
      (by decide)).2.2).trans (by decide)⟩

end IdpCli

namespace IdpCli

/-- Claim C6: for any manifest whose rows resolve to colliding document
ids (duplicate explicit ids, or duplicate derived ids from same-named
files in different directories), `parse` fails naming every offending
row — not just the first — and nothing is uploaded to the staging
area. -/
theorem parse_names_all_duplicates_before_upload (rows : List ManifestRow)
    (b : String) (i j : Nat) (ri rj : ManifestRow)
    (hi : (i, ri) ∈ rows.enum) (hj : (j, rj) ∈ rows.enum) (hij : i ≠ j)
    (hid : rowId ri = rowId rj) :
    ∃ bad, parse rows = .error bad ∧ (i, ri) ∈ bad ∧ (j, rj) ∈ bad
      ∧ uploadsAfterParse b rows = [] := by
  have hmem_i : (i, ri) ∈ offendingRows rows := by
    simp only [offendingRows, List.mem_filter]
    refine ⟨hi, ?_⟩
    rw [List.any_eq_true]
    exact ⟨(j, rj), hj, by simp [hij.symm, hid.symm]⟩
  have hmem_j : (j, rj) ∈ offendingRows rows := by
    simp only [offendingRows, List.mem_filter]
    refine ⟨hj, ?_⟩
    rw [List.any_eq_true]
    exact ⟨(i, ri), hi, by simp [hij, hid]⟩
  rcases hcase : offendingRows rows with _ | ⟨p, bad'⟩
  · rw [hcase] at hmem_i
    cases hmem_i
  · refine ⟨p :: bad', ?_, ?_, ?_, ?_⟩
    · simp [parse, hcase]
    · rw [hcase] at hmem_i; exact hmem_i
    · rw [hcase] at hmem_j; exact hmem_j
    · simp [uploadsAfterParse, parse, hcase]

/-- Witness for C6: two rows a/x.pdf and b/x.pdf with derived ids both x
make parse fail naming both rows, with no uploads. -/
theorem parse_names_all_duplicates_before_upload_witness :
    ∃ bad, parse exampleRows = .error bad
      ∧ (0, ({ document_path := "a/x.pdf", document_id := none } : ManifestRow)) ∈ bad
      ∧ (1, ({ document_path := "b/x.pdf", document_id := none } : ManifestRow)) ∈ bad
      ∧ uploadsAfterParse "batch-1" exampleRows = [] :=
  parse_names_all_duplicates_before_upload exampleRows "batch-1" 0 1
    { document_path := "a/x.pdf", document_id := none }
    { document_path := "b/x.pdf", document_id := none }
    (by decide) (by decide) (by decide) (by decide)

theorem docIdComponents_dropLast (p : List String) :
    (docIdComponents p).dropLast = p.dropLast := by
  induction p with
  | nil => rfl
  | cons c rest ih =>
    cases rest with
    | nil => rfl
    | cons c2 rest2 =>
      rw [show docIdComponents (c :: c2 :: rest2)
            = c :: docIdComponents (c2 :: rest2) from rfl]
      obtain ⟨y, l, hyl⟩ : ∃ y l, docIdComponents (c2 :: rest2) = y :: l := by
        cases rest2 <;> exact ⟨_, _, rfl⟩
      rw [hyl, List.dropLast_cons₂, ← hyl, ih, List.dropLast_cons₂]

/-- Claim C7: a directory scan of files a/x.pdf and b/x.pdf yields the
distinct document ids a/x and b/x — the relative sub-path is preserved in
the generated document id and in the staging destination key, so two
files with different parent directories never share an id. -/
theorem dirscan_preserves_relative_subpath (bid : String) (p1 p2 : List String)
    (h : p1.dropLast ≠ p2.dropLast) :
    docIdComponents p1 ≠ docIdComponents p2
    ∧ docIdComponents ["a", "x.pdf"] = ["a", "x"]
    ∧ docIdComponents ["b", "x.pdf"] = ["b", "x"]
    ∧ (["a", "x"] : List String) ≠ ["b", "x"]
    ∧ docIdComponents ["a", "x.pdf"] ≠ ["x"]
    ∧ docIdComponents ["b", "x.pdf"] ≠ ["x"]
    ∧ destKeyComponents bid ["a", "x.pdf"] ≠ destKeyComponents bid ["b", "x.pdf"] := by
  refine ⟨?_, by decide, by decide, by decide, by decide, by decide,
    by simp [destKeyComponents]⟩
  intro hcontra
  exact h (by rw [← docIdComponents_dropLast p1, ← docIdComponents_dropLast p2, hcontra])

/-- Witness for C7: the claim instantiated at the two concrete paths. -/
theorem dirscan_preserves_relative_subpath_witness :
    docIdComponents ["a", "x.pdf"] ≠ docIdComponents ["b", "x.pdf"]
    ∧ docIdComponents ["a", "x.pdf"] = ["a", "x"]
    ∧ docIdComponents ["b", "x.pdf"] = ["b", "x"]
    ∧ (["a", "x"] : List String) ≠ ["b", "x"]
    ∧ docIdComponents ["a", "x.pdf"] ≠ ["x"]
    ∧ docIdComponents ["b", "x.pdf"] ≠ ["x"]
    ∧ destKeyComponents "batch-1" ["a", "x.pdf"]
        ≠ destKeyComponents "batch-1" ["b", "x.pdf"] :=
  dirscan_preserves_relative_subpath "batch-1" ["a", "x.pdf"] ["b", "x.pdf"]
    (by decide)

end IdpCli

namespace IdpCli

theorem monitorPolls_first_true (script : Nat → Bool) :
    ∀ (d k fuel : Nat), script (k + d) = true →
    (∀ j, j < d → script (k + j) = false) → d < fuel →
    monitorPolls script fuel k = (List.range (d + 1)).map (fun j => k + j) := by
  intro d
  induction d with
  | zero =>
    intro k fuel ht _ hf
    obtain ⟨f, rfl⟩ : ∃ f, fuel = f + 1 := ⟨fuel - 1, by omega⟩
    rw [monitorPolls]
    rw [Nat.add_zero] at ht
    simp [ht, List.range_succ]
  | succ d ih =>
    intro k fuel ht hb hf
    obtain ⟨f, rfl⟩ : ∃ f, fuel = f + 1 := ⟨fuel - 1, by omega⟩
    rw [monitorPolls]
    have h0 : script k = false := by
      have := hb 0 (Nat.succ_pos d)
      simpa using this
    rw [h0]
    simp only [Bool.false_eq_true, if_false]
    have ht' : script (k + 1 + d) = true := by
      rw [show k + 1 + d = k + (d + 1) from by omega]
      exact ht
    have hb' : ∀ j, j < d → script (k + 1 + j) = false := by
      intro j hj
      rw [show k + 1 + j = k + (j + 1) from by omega]
      exact hb (j + 1) (by omega)
    rw [ih (k + 1) f ht' hb' (by omega)]
    have hsplit : (List.range (d + 1 + 1)).map (fun j => k + j)
        = k :: (List.range (d + 1)).map (fun j => k + 1 + j) := by
      rw [List.range_succ_eq_map]
      have hfun : ((fun j => k + j) ∘ Nat.succ) = (fun j => k + 1 + j) := by
        funext j
        simp only [Function.comp]
        omega
      simp only [List.map_cons, List.map_map, Nat.add_zero, hfun]
    rw [hsplit]

/-- Claim C8: the monitor loop calls the aggregator once per tick and
stops at the first terminal summary — when the scripted `is_terminal`
flags are false for the first n ticks and true at tick n, the loop polls
exactly ticks 0..n; in particular false, false, true gives exactly 3
ticks and no further polling. -/
theorem monitor_stops_at_first_terminal (script : Nat → Bool) (n fuel : Nat)
    (hn : script n = true) (hb : ∀ m, m < n → script m = false) (hf : n < fuel) :
    monitorPolls script fuel 0 = List.range (n + 1)
    ∧ (monitorPolls script fuel 0).length = n + 1
    ∧ monitorPolls (fun k => decide (2 ≤ k)) 10 0 = [0, 1, 2] := by
  have h := monitorPolls_first_true script n 0 fuel (by simpa using hn)
    (fun j hj => by simpa using hb j hj) hf
  have h2 : monitorPolls script fuel 0 = List.range (n + 1) := by
    rw [h]
    simp
  exact ⟨h2, by rw [h2]; simp, by decide⟩

/-- Witness for C8: a scripted aggregator that is terminal from the third
tick on makes the loop poll exactly ticks 0, 1, 2. -/
theorem monitor_stops_at_first_terminal_witness :
    monitorPolls (fun k => decide (2 ≤ k)) 10 0 = List.range 3
    ∧ (monitorPolls (fun k => decide (2 ≤ k)) 10 0).length = 3
    ∧ monitorPolls (fun k => decide (2 ≤ k)) 10 0 = [0, 1, 2] :=
  monitor_stops_at_first_terminal (fun k => decide (2 ≤ k)) 2 10
    (by decide) (by decide) (by decide)

/-- Claim C9: cancelling the monitor loop at any point, including
mid-poll, performs no writes to the remote systems — every state
reachable through the monitor's step relation, in particular a cancelled
one, carries the Batch Registry and tracking state unchanged. -/
theorem monitor_cancellation_leaves_remote_unchanged (s t : MonitorState)
    (h : Relation.ReflTransGen MonitorStep s t) ( _hc : t.phase = .cancelled) :
    t.remote = s.remote ∧ t.remote.registry = s.remote.registry
      ∧ t.remote.tracking = s.remote.tracking := by
  clear _hc
  have hrem : t.remote = s.remote := by
    induction h with
    | refl => rfl
    | tail hab hbc ih =>
      cases hbc with
      | beginPoll ht => simpa using ih
      | finishPoll b ds ht => simpa using ih
      | cancel ht => simpa using ih
  exact ⟨hrem, by rw [hrem], by rw [hrem]⟩

/-- Witness for C9: a session that starts polling and is cancelled
mid-poll reaches a cancelled state whose remote systems equal the initial
ones. -/
theorem monitor_cancellation_leaves_remote_unchanged_witness :
    ({ phase := .cancelled, remote := exampleRemote, ticks := 0 } : MonitorState).remote
      = exampleMonitorStart.remote :=
  (monitor_cancellation_leaves_remote_unchanged exampleMonitorStart
    { phase := .cancelled, remote := exampleRemote, ticks := 0 }
    (Relation.ReflTransGen.head
      (MonitorStep.beginPoll exampleMonitorStart rfl)
      (Relation.ReflTransGen.head
        (MonitorStep.cancel { exampleMonitorStart with phase := .midPoll } (Or.inr rfl))
        Relation.ReflTransGen.refl))
    rfl).1

/-- Claim C10: the demo script's manifest loop appends exactly one CSV
row per regular `*.pdf` file directly under the W2 samples directory,
with the document id equal to the file's basename minus its final
extension and the type column `local`, and the reported document count
(manifest lines minus the header) equals the number of such PDF files. -/
theorem w2_demo_manifest_row_per_pdf (dir : String) (entries : List DirEntry) :
    (w2ManifestRows dir entries).length
        = (entries.filter (fun e => matchesPdfGlob e.name && e.isFile)).length
    ∧ (w2ManifestRows dir entries).map (fun r => r.document_id)
        = (entries.filter (fun e => matchesPdfGlob e.name && e.isFile)).map
            (fun e => stemString e.name)
    ∧ (∀ r ∈ w2ManifestRows dir entries, r.typeCol = "local"
        ∧ r.expected_class = "W2")
    ∧ w2DocCount dir entries
        = (entries.filter (fun e => matchesPdfGlob e.name && e.isFile)).length
    ∧ stemString "W2_XL_input_clean_1000.pdf" = "W2_XL_input_clean_1000"
    ∧ stemString "multi.part.pdf" = "multi.part" := by
  refine ⟨?_, ?_, ?_, ?_, by decide, by decide⟩
  · simp [w2ManifestRows]
  · simp [w2ManifestRows]
  · intro r hr
    simp only [w2ManifestRows, List.mem_map] at hr
    obtain ⟨e, _, rfl⟩ := hr
    exact ⟨rfl, rfl⟩
  · simp [w2DocCount, w2ManifestLines, w2ManifestRows]

/-- Witness for C10: on a concrete listing with two W2 PDFs, a text file
and a subdirectory, the reported count is 2 and the ids drop the final
extension. -/
theorem w2_demo_manifest_row_per_pdf_witness :
    w2DocCount "/samples/w2" exampleW2Dir = 2
    ∧ (w2ManifestRows "/samples/w2" exampleW2Dir).map (fun r => r.document_id)
        = ["W2_XL_input_clean_1000", "W2_XL_input_clean_1001"] :=
  ⟨((w2_demo_manifest_row_per_pdf "/samples/w2" exampleW2Dir).2.2.2.1).trans (by decide),
    ((w2_demo_manifest_row_per_pdf "/samples/w2" exampleW2Dir).2.1).trans (by decide)⟩

end IdpCli
